import Mathlib

/-
Shallow embedding of the blinksbuy MCP orchestrator core
(`orchestration/` package): session memory store, session context,
menu validator, n8n/POS/analytics gateways and the agent core
dispatcher.  Times are modelled as integers (seconds), similarity
ratios and thresholds as rationals, and the external HTTP ports as
explicit per-turn behaviors (`Except` values).  ASCII apostrophes and
quotes occurring inside Python string literals are transliterated to
their Unicode counterparts.
-/

namespace Orchestrator

/-- Python truthiness of an optional string: `None` and `""` are falsy. -/
def strTruthy : Option String → Bool
  | none => false
  | some s => s ≠ ""

/-- Python `a or b` on optional strings (used for
`intent_data.phone or ctx.state.scratchpad.get("phone")` and the
analogous address fallback). -/
def pyOrOpt (a b : Option String) : Option String :=
  if strTruthy a then a else b

/-- Python `str.strip()`: remove leading and trailing whitespace.
Modelled over the character list so that it evaluates inside the
kernel. -/
def pyStrip (s : String) : String :=
  ⟨((s.data.dropWhile Char.isWhitespace).reverse.dropWhile Char.isWhitespace).reverse⟩

/-- Python `str.lower()` (character-wise case folding, over the
character list for the same reason). -/
def pyLower (s : String) : String :=
  ⟨s.data.map Char.toLower⟩

/-- A menu item as delivered by the menu webhook: either a JSON object
with optional `name`/`price` fields, or a bare value rendered as a
string (mirrors the `isinstance(m, dict)` branches in the source). -/
inductive MenuItem where
  | obj (name : Option String) (price : Option String)
  | str (s : String)
deriving DecidableEq

/-- `(m.get("name") or "").strip()` for dict items, `str(m).strip()`
otherwise (the normalization used by `MenuValidator.validate_items`). -/
def itemName : MenuItem → String
  | .obj name _ => pyStrip (name.getD "")
  | .str s => pyStrip s

/-- Python `data.get("menu") or data.get("items") or []`:
the first truthy (non-empty) list wins. -/
def pyOrList (a b : List MenuItem) : List MenuItem :=
  if a.isEmpty then b else a

/-- Lookup in an insertion-ordered association list with Python dict
assignment semantics: the most recently written binding for a key wins. -/
def dictGet (k : String) : List (String × MenuItem) → Option MenuItem
  | [] => none
  | (k', v) :: rest =>
    match dictGet k rest with
    | some v' => some v'
    | none => if k' = k then some v else none

/-- One iteration of the lookup-building loop of
`MenuValidator.validate_items`: entries whose normalized name is empty
are skipped; a surviving entry binds its lower-cased name in the dict
and appends that name to `names_lower`. -/
def lookupStep (acc : List (String × MenuItem) × List String) (m : MenuItem) :
    List (String × MenuItem) × List String :=
  let name := itemName m
  if name = "" then acc
  else (acc.1 ++ [(pyLower name, m)], acc.2 ++ [pyLower name])

/-- The `name_to_item` dict and `names_lower` list built by the loop in
`MenuValidator.validate_items`, in menu iteration order. -/
def buildLookup (menu_items : List MenuItem) : List (String × MenuItem) × List String :=
  menu_items.foldl lookupStep ([], [])

/-- One iteration of the fuzzy-matching loop:
`if ratio > best_ratio: best_ratio, best_match = ratio, name_lower`. -/
def fuzzyStep (ratio : String → String → ℚ) (cand_lower : String)
    (acc : Option String × ℚ) (name_lower : String) : Option String × ℚ :=
  let r := ratio cand_lower name_lower
  if acc.2 < r then (some name_lower, r) else acc

/-- The whole fuzzy scan over `names_lower`, starting from
`best_match = None`, `best_ratio = 0.0`. -/
def fuzzyBest (ratio : String → String → ℚ) (cand_lower : String)
    (names_lower : List String) : Option String × ℚ :=
  names_lower.foldl (fuzzyStep ratio cand_lower) (none, 0)

/-- The maximum similarity ratio tracked by the fuzzy loop (the loop
starts from `best_ratio = 0.0`, hence the `0` seed). -/
def maxRatio (ratio : String → String → ℚ) (cand_lower : String)
    (names_lower : List String) : ℚ :=
  names_lower.foldl (fun b n => max b (ratio cand_lower n)) 0

/-- The body of the per-line loop of `MenuValidator.validate_items`,
acting on the accumulated `(valid_items, unknown_items)` pair:
skip blank lines, try the exact case-insensitive lookup, otherwise run
the fuzzy scan and compare the best ratio against the threshold
(`if best_match and best_ratio >= self.fuzzy_threshold`). -/
def lineStep (ratio : String → String → ℚ) (fuzzy_threshold : ℚ)
    (name_to_item : List (String × MenuItem)) (names_lower : List String)
    (acc : List MenuItem × List String) (raw : String) :
    List MenuItem × List String :=
  let candidate := pyStrip raw
  if candidate = "" then acc
  else
    let cand_lower := pyLower candidate
    match dictGet cand_lower name_to_item with
    | some item => (acc.1 ++ [item], acc.2)
    | none =>
      let best := fuzzyBest ratio cand_lower names_lower
      if strTruthy best.1 ∧ fuzzy_threshold ≤ best.2 then
        (acc.1 ++ [(dictGet (best.1.getD "") name_to_item).getD (.str "")], acc.2)
      else
        (acc.1, acc.2 ++ [candidate])

/-- The scratchpad keys the orchestrator ever reads or writes.  The
source keeps an open string-keyed dict; exactly these five keys are
touched (`menu_items`, `phone`, `address`, `last_order_id`,
`last_order_items`).  `last_order_id` stores the possibly-missing
`order_id` value itself, hence the nested option. -/
structure Scratchpad where
  menu_items : Option (List MenuItem) := none
  phone : Option String := none
  address : Option String := none
  last_order_id : Option (Option String) := none
  last_order_items : Option (List MenuItem) := none
deriving DecidableEq

/-- `SessionState` dataclass. -/
structure SessionState where
  flow : Option String := none
  step : Option String := none
  scratchpad : Scratchpad := {}
  session_done : Bool := false
deriving DecidableEq

/-- Message roles. -/
inductive Role where
  | user | assistant | system
deriving DecidableEq

/-- `Message` dataclass (timestamps as integers). -/
structure Message where
  role : Role
  text : String
  timestamp : Int
deriving DecidableEq

/-- `ShortTermMemory` dataclass. -/
structure ShortTermMemory where
  history : List Message := []
  turn_count : Nat := 0
  last_user_message_at : Option Int := none
deriving DecidableEq

/-- `SessionMeta` dataclass. -/
structure SessionMeta where
  channel : String
  user_id : String
  session_id : String
  created_at : Int
  last_seen_at : Int
deriving DecidableEq

/-- `SessionContext` dataclass. -/
structure SessionContext where
  session : SessionMeta
  state : SessionState
  short_term : ShortTermMemory
deriving DecidableEq

/-- `SessionContext.new`. -/
def SessionContext.new (channel user_id session_id : String)
    (created_at : Int) : SessionContext :=
  { session :=
      { channel := channel, user_id := user_id, session_id := session_id
        created_at := created_at, last_seen_at := created_at }
    state := {}
    short_term := {} }

/-- `SessionContext.touch`. -/
def SessionContext.touch (ctx : SessionContext) (now : Int) : SessionContext :=
  { ctx with session := { ctx.session with last_seen_at := now } }

/-- `SessionContext.append_user_message`. -/
def SessionContext.append_user_message (ctx : SessionContext)
    (text : String) (timestamp : Int) : SessionContext :=
  let msg : Message := { role := .user, text := text, timestamp := timestamp }
  let ctx :=
    { ctx with
      short_term :=
        { history := ctx.short_term.history ++ [msg]
          turn_count := ctx.short_term.turn_count + 1
          last_user_message_at := some timestamp } }
  ctx.touch timestamp

/-- `SessionContext.append_assistant_message` (defined in the source but
never called by the orchestrator). -/
def SessionContext.append_assistant_message (ctx : SessionContext)
    (text : String) (timestamp : Int) : SessionContext :=
  let msg : Message := { role := .assistant, text := text, timestamp := timestamp }
  let ctx :=
    { ctx with
      short_term := { ctx.short_term with history := ctx.short_term.history ++ [msg] } }
  ctx.touch timestamp

/-- `MenuValidator.validate_items`.  The context is returned alongside
the result to record the frame of the call: the source only reads
`ctx.state.scratchpad.get("menu_items")` and never writes to `ctx`. -/
def validate_items (ratio : String → String → ℚ) (fuzzy_threshold : ℚ)
    (ordered_items : List String) (ctx : SessionContext) :
    (List MenuItem × List String) × SessionContext :=
  let menu_items := ctx.state.scratchpad.menu_items.getD []
  if menu_items.isEmpty then (([], ordered_items), ctx)
  else
    let lookup := buildLookup menu_items
    (ordered_items.foldl (lineStep ratio fuzzy_threshold lookup.1 lookup.2) ([], []), ctx)

/-- Session keys: `(channel, user_id, session_id)`. -/
abbrev SessionKey := String × String × String

/-- `MemoryStore`: an in-memory mapping from session keys to contexts
(modelled as an association list with at most one binding per key,
which `save` maintains) plus the fixed TTL (`timedelta` as an integer
duration). -/
structure MemoryStore where
  store : List (SessionKey × SessionContext) := []
  ttl : Int
deriving DecidableEq

/-- `MemoryStore._key`. -/
def MemoryStore.key (channel user_id session_id : String) : SessionKey :=
  (channel, user_id, session_id)

/-- `self._store.get(key)`. -/
def storeGet (k : SessionKey) (l : List (SessionKey × SessionContext)) :
    Option SessionContext :=
  (l.find? (fun p => decide (p.1 = k))).map (·.2)

/-- `MemoryStore.load`: absent key gives `None`; an expired record
(`now - last_seen_at > ttl`) is popped as a side effect and reported
absent; otherwise the record is returned unchanged. -/
def MemoryStore.load (s : MemoryStore) (channel user_id session_id : String)
    (now : Int) : Option SessionContext × MemoryStore :=
  let key := MemoryStore.key channel user_id session_id
  match storeGet key s.store with
  | none => (none, s)
  | some ctx =>
    if s.ttl < now - ctx.session.last_seen_at then
      (none, { s with store := s.store.filter (fun p => decide (p.1 ≠ key)) })
    else
      (some ctx, s)

/-- `MemoryStore.save`: upsert by the key derived from the record. -/
def MemoryStore.save (s : MemoryStore) (ctx : SessionContext) : MemoryStore :=
  let key := MemoryStore.key ctx.session.channel ctx.session.user_id ctx.session.session_id
  { s with store := s.store.filter (fun p => decide (p.1 ≠ key)) ++ [(key, ctx)] }

/-- `MemoryStore.purge_expired`. -/
def MemoryStore.purge_expired (s : MemoryStore) (now : Int) : MemoryStore :=
  { s with store := s.store.filter (fun p => decide (now - p.2.session.last_seen_at ≤ s.ttl)) }

/-- An exception escaping the HTTP layer inside a port call (connection
failure, `raise_for_status`, timeout, ...). -/
inductive HttpError where
  | connectError
  | statusError (code : Nat)
deriving DecidableEq

/-- The JSON object returned by an n8n webhook, restricted to the fields
the orchestrator reads; an error or unrecognized payload (for example
`{"error": "url_not_configured"}` or `{"raw": ...}`) is the record with
every field absent. -/
structure N8NData where
  menu : Option (List MenuItem) := none
  items : Option (List MenuItem) := none
  verified : Option Bool := none
  normalized_phone : Option String := none
  order_id : Option String := none
  eta : Option String := none
deriving DecidableEq

/-- The `settings` fields consumed by the gateways; an unconfigured URL
is the empty string (falsy). -/
structure Config where
  N8N_MENU_WEBHOOK_URL : String := ""
  N8N_PHONE_WEBHOOK_URL : String := ""
  N8N_ORDER_WEBHOOK_URL : String := ""
  POS_MCP_URL : String := ""
  N8N_ANALYTICS_WEBHOOK_URL : String := ""
deriving DecidableEq

/-- The behavior of each external HTTP endpoint during one turn: either
a parsed response or an exception from the transport/status check. -/
structure PortBehavior where
  menuResp : Except HttpError N8NData := .ok {}
  phoneResp : Except HttpError N8NData := .ok {}
  orderResp : Except HttpError N8NData := .ok {}
  posResp : Except HttpError Unit := .ok ()
  analyticsResp : Except HttpError Unit := .ok ()

/-- `N8NGateway._post`: an unconfigured URL short-circuits to an error
dict without touching the network (no exception possible); otherwise
the call yields whatever the HTTP layer does, including raising. -/
def gatewayPost (url : String) (resp : Except HttpError N8NData) :
    Except HttpError N8NData :=
  if url = "" then .ok {} else resp

/-- `POSGateway.send_to_pos`: skipped when unconfigured; otherwise any
exception from the HTTP call is swallowed (`except Exception: pass`). -/
def send_to_pos (cfg : Config) (resp : Except HttpError Unit) : Unit :=
  if cfg.POS_MCP_URL = "" then ()
  else
    match resp with
    | .ok _ => ()
    | .error _ => ()

/-- `AnalyticsGateway.send_analytics`: skipped when unconfigured;
otherwise any exception from the HTTP call is swallowed. -/
def send_analytics (cfg : Config) (resp : Except HttpError Unit) : Unit :=
  if cfg.N8N_ANALYTICS_WEBHOOK_URL = "" then ()
  else
    match resp with
    | .ok _ => ()
    | .error _ => ()

/-- `IntentData`: the structured output of the (external) LLM router for
one turn. -/
structure IntentData where
  intent : String
  phone : Option String := none
  address : Option String := none
  items : List String := []
  notes : Option String := none
  satisfaction : Option ℚ := none
deriving DecidableEq

/-- `OrchestratorRequest`. -/
structure OrchestratorRequest where
  channel : String
  user_id : String
  session_id : String
  text : String
deriving DecidableEq

/-- `MemorySnapshot`. -/
structure MemorySnapshot where
  flow : Option String
  step : Option String
  scratchpad : Scratchpad
  last_user_message_at : Option Int
  turn_count : Nat
deriving DecidableEq

/-- `MemorySnapshot.from_ctx`. -/
def MemorySnapshot.from_ctx (ctx : SessionContext) : MemorySnapshot :=
  { flow := ctx.state.flow
    step := ctx.state.step
    scratchpad := ctx.state.scratchpad
    last_user_message_at := ctx.short_term.last_user_message_at
    turn_count := ctx.short_term.turn_count }

/-- `OrchestratorResponse`. -/
structure OrchestratorResponse where
  reply_text : String
  session_done : Bool := false
  memory_snapshot : MemorySnapshot
deriving DecidableEq

/-- The menu-line formatting shared by `_handle_get_menu` and the
unknown-items branch of `_handle_order`:
`name = item.get("name") or "Unnamed item"` for dicts, `str(item)`
otherwise; a truthy price adds an em-dash suffix. -/
def menuLine (m : MenuItem) : String :=
  match m with
  | .obj name price =>
    let nm := if strTruthy name then name.getD "" else "Unnamed item"
    if strTruthy price then "- " ++ nm ++ " — " ++ price.getD ""
    else "- " ++ nm
  | .str s => "- " ++ s

/-- `AgentCore._handle_get_menu`.  The webhook call is not wrapped in
any `try`, so an HTTP exception propagates (`.error`). -/
def handle_get_menu (cfg : Config) (ports : PortBehavior)
    (ctx : SessionContext) : Except HttpError (String × SessionContext) :=
  match gatewayPost cfg.N8N_MENU_WEBHOOK_URL ports.menuResp with
  | .error e => .error e
  | .ok data =>
    let menu_items := pyOrList (data.menu.getD []) (data.items.getD [])
    if menu_items.isEmpty then
      .ok ("Our menu system is temporarily unavailable, but I can still take your order. What would you like to eat?", ctx)
    else
      let ctx := { ctx with state.scratchpad.menu_items := some menu_items }
      let lines := ["Here are some options on the menu:"]
        ++ (menu_items.take 10).map menuLine
        ++ ["What would you like to order?"]
      .ok (String.intercalate "\n" lines, ctx)

/-- `AgentCore._handle_phone`: `phone = intent_data.phone or
ctx.state.scratchpad.get("phone")`; a falsy phone asks again without any
webhook call; otherwise verification runs (uncaught) and the
(possibly normalized) phone is cached regardless of the outcome. -/
def handle_phone (cfg : Config) (ports : PortBehavior) (d : IntentData)
    (ctx : SessionContext) : Except HttpError (String × SessionContext) :=
  let phone := pyOrOpt d.phone ctx.state.scratchpad.phone
  if strTruthy phone = false then
    .ok ("I didn’t catch your phone number. Can you say it again?", ctx)
  else
    match gatewayPost cfg.N8N_PHONE_WEBHOOK_URL ports.phoneResp with
    | .error e => .error e
    | .ok data =>
      let verified := data.verified.getD false
      let normalized := data.normalized_phone.getD (phone.getD "")
      let ctx := { ctx with state.scratchpad.phone := some normalized }
      if verified then
        .ok ("Got it. I’ve verified your number as " ++ normalized
          ++ ". What is your delivery address?", ctx)
      else
        .ok ("I heard your phone as " ++ normalized
          ++ ", but I couldn’t verify it. Do you still want to use this number, or would you like to provide another one?", ctx)

/-- `AgentCore._handle_address` (no webhook involved). -/
def handle_address (d : IntentData) (ctx : SessionContext) :
    String × SessionContext :=
  let address := pyOrOpt d.address ctx.state.scratchpad.address
  if strTruthy address = false then
    ("I didn’t catch your address. Can you please repeat it?", ctx)
  else
    ("Thanks, I have your address as: " ++ address.getD ""
      ++ ". Would you like me to place the order now?",
     { ctx with state.scratchpad.address := address })

/-- The clarification reply built by `_handle_order` when some items did
not match the menu. -/
def unknownItemsReply (unknown_items : List String) (ctx : SessionContext) :
    String :=
  let lines := ["I couldn’t find these items in our menu:"]
    ++ unknown_items.map (fun itm => "- " ++ itm)
  let menu_items := ctx.state.scratchpad.menu_items.getD []
  let lines :=
    if menu_items.isEmpty then lines
    else lines ++ ["", "Here are some items you can order instead:"]
      ++ (menu_items.take 8).map menuLine
  let lines := lines ++ ["", "Can you please choose from the menu items?"]
  String.intercalate "\n" lines

/-- `AgentCore._handle_order`. -/
def handle_order (cfg : Config) (ports : PortBehavior)
    (ratio : String → String → ℚ) (fuzzy_threshold : ℚ) (d : IntentData)
    (ctx : SessionContext) : Except HttpError (String × SessionContext) :=
  let ordered_items := d.items
  let res := validate_items ratio fuzzy_threshold ordered_items ctx
  let valid_menu_items := res.1.1
  let unknown_items := res.1.2
  let ctx := res.2
  if unknown_items.isEmpty then
    match gatewayPost cfg.N8N_ORDER_WEBHOOK_URL ports.orderResp with
    | .error e => .error e
    | .ok data =>
      let order_id := data.order_id
      let eta := data.eta
      let ctx :=
        { ctx with
          state.scratchpad.last_order_id := some order_id
          state.scratchpad.last_order_items := some valid_menu_items }
      let _pos := send_to_pos cfg ports.posResp
      let base := "I’ve placed your order"
      let base := if strTruthy order_id then base ++ " with reference ID " ++ order_id.getD "" else base
      let base :=
        if strTruthy eta then base ++ ". Estimated delivery time is " ++ eta.getD "" ++ "."
        else base ++ "."
      let ctx := { ctx with state.session_done := true }
      .ok (base ++ " Thank you for ordering! Enjoy your meal.", ctx)
  else
    .ok (unknownItemsReply unknown_items ctx, ctx)

/-- The intent branch of `_route_intent`: set the step label for the
matched intent and run the matching handler (or produce the canned
fallback replies). -/
def intentBranch (cfg : Config) (ports : PortBehavior)
    (ratio : String → String → ℚ) (fuzzy_threshold : ℚ) (d : IntentData)
    (ctx : SessionContext) : Except HttpError (String × SessionContext) :=
  if d.intent = "get_menu" then
    handle_get_menu cfg ports { ctx with state.step := some "menu" }
  else if d.intent = "provide_phone" then
    handle_phone cfg ports d { ctx with state.step := some "phone" }
  else if d.intent = "provide_address" then
    .ok (handle_address d { ctx with state.step := some "address" })
  else if d.intent = "place_order" then
    handle_order cfg ports ratio fuzzy_threshold d { ctx with state.step := some "order" }
  else if d.intent = "chitchat" ∨ d.intent = "unknown" then
    .ok ("I can help you with food orders, menus, and delivery details. What would you like to eat today?",
      { ctx with state.step := some "fallback" })
  else
    .ok ("I’m not sure I understood that. I can help you with food ordering. For example, you can say: ‘Show me the menu’ or ‘I want a cheeseburger.’",
      { ctx with state.step := some "unknown" })

/-- `AgentCore._route_intent`: set the flow if unset, dispatch on the
intent, and return the reply together with `ctx.state.session_done` as
read after the handler ran. -/
def route_intent (cfg : Config) (ports : PortBehavior)
    (ratio : String → String → ℚ) (fuzzy_threshold : ℚ) (d : IntentData)
    (ctx : SessionContext) :
    Except HttpError (String × Bool × SessionContext) :=
  let ctx := if ctx.state.flow = none then { ctx with state.flow := some "food_order" } else ctx
  match intentBranch cfg ports ratio fuzzy_threshold d ctx with
  | .error e => .error e
  | .ok (reply_text, ctx) => .ok (reply_text, ctx.state.session_done, ctx)

/-- `AgentCore._resolve_session`: load an existing context or create a
fresh one; also returns the store as left by the (possibly evicting)
load. -/
def resolve_session (store : MemoryStore) (req : OrchestratorRequest)
    (now : Int) : SessionContext × MemoryStore :=
  let loaded := store.load req.channel req.user_id req.session_id now
  (match loaded.1 with
   | some ctx => ctx
   | none => SessionContext.new req.channel req.user_id req.session_id now,
   loaded.2)

/-- `AgentCore.handle`: one full turn.  The classifier is an external
port (§6 of the spec), so its output `d` for this turn is a parameter,
as are the HTTP behaviors of the webhook ports. -/
def handle (cfg : Config) (ports : PortBehavior)
    (ratio : String → String → ℚ) (fuzzy_threshold : ℚ)
    (store : MemoryStore) (req : OrchestratorRequest) (d : IntentData)
    (now : Int) : Except HttpError (OrchestratorResponse × MemoryStore) :=
  let resolved := resolve_session store req now
  let store := resolved.2
  let ctx := resolved.1
  let ctx := ctx.append_user_message req.text now
  match route_intent cfg ports ratio fuzzy_threshold d ctx with
  | .error e => .error e
  | .ok (reply_text, session_done, ctx) =>
    let ctx := { ctx with state.session_done := session_done }
    let memory_snapshot := MemorySnapshot.from_ctx ctx
    let _a := send_analytics cfg ports.analyticsResp
    let store := store.save ctx
    .ok ({ reply_text := reply_text, session_done := session_done
           memory_snapshot := memory_snapshot }, store)

/-- The running maximum of the fuzzy fold seeded by an arbitrary
accumulator value (generalizes `maxRatio`, which seeds with `0`). -/
def foldMax (ratio : String → String → ℚ) (cand_lower : String)
    (names_lower : List String) (b : ℚ) : ℚ :=
  names_lower.foldl (fun b n => max b (ratio cand_lower n)) b

/-- The unmatched list claim C5 predicts for an empty cached menu,
written from the claim text (not from the source): the input list
restricted to its non-empty, trimmed lines, preserving order. -/
def claimedEmptyMenuUnmatched (ordered_items : List String) : List String :=
  (ordered_items.map pyStrip).filter (fun s => decide (s ≠ ""))

/-- The history invariant of claim C10: every recorded message has the
user role and the history length agrees with `turn_count`. -/
def historyInv (ctx : SessionContext) : Prop :=
  (∀ m ∈ ctx.short_term.history, m.role = Role.user) ∧
  ctx.short_term.history.length = ctx.short_term.turn_count

/-- C5 counterexample: for the whitespace-only input line `"  "` and an
absent cached menu, `validate_items` returns the raw line itself in the
unmatched list, while the claim predicts the restriction to non-empty
trimmed lines, which is empty. -/
theorem validate_items_empty_menu_cex :
    (validate_items (fun _ _ => 0) (7/10) ["  "]
        (SessionContext.new "web" "u1" "s1" 0)).1.2 = ["  "] ∧
    claimedEmptyMenuUnmatched ["  "] = [] ∧
    (validate_items (fun _ _ => 0) (7/10) ["  "]
        (SessionContext.new "web" "u1" "s1" 0)).1.2
      ≠ claimedEmptyMenuUnmatched ["  "] := by
  refine ⟨rfl, rfl, ?_⟩
  decide

/-- C5 (amended): when the cached menu is empty or absent,
reconciliation returns `matched = []` and an unmatched list equal to the
full input list verbatim (untrimmed, including empty lines), preserving
input order; the context is left unchanged. -/
theorem validate_items_empty_menu (ratio : String → String → ℚ)
    (fuzzy_threshold : ℚ) (ordered_items : List String)
    (ctx : SessionContext)
    (h : ctx.state.scratchpad.menu_items.getD [] = []) :
    validate_items ratio fuzzy_threshold ordered_items ctx
      = (([], ordered_items), ctx) := by
  simp [validate_items, h]

/-- C5 witness: instance of the amended claim on a concrete input. -/
theorem validate_items_empty_menu_witness :
    validate_items (fun _ _ => 0) (7/10) ["  ", "pizza"]
        (SessionContext.new "web" "u1" "s1" 0)
      = (([], ["  ", "pizza"]), SessionContext.new "web" "u1" "s1" 0) :=
  validate_items_empty_menu _ _ _ _ rfl

/-- C9: `validate_items` is pure: it returns the session context
unchanged, and its result depends on the context only through the
cached menu in `scratchpad.menu_items` (given the input list, the
ratio function and the threshold). -/
theorem validate_items_pure (ratio : String → String → ℚ)
    (fuzzy_threshold : ℚ) (ordered_items : List String)
    (ctx ctx₂ : SessionContext) :
    (validate_items ratio fuzzy_threshold ordered_items ctx).2 = ctx ∧
    (ctx.state.scratchpad.menu_items = ctx₂.state.scratchpad.menu_items →
      (validate_items ratio fuzzy_threshold ordered_items ctx).1
        = (validate_items ratio fuzzy_threshold ordered_items ctx₂).1) := by
  constructor
  · simp only [validate_items]
    split <;> rfl
  · intro h
    simp only [validate_items]
    rw [h]
    split <;> rfl

/-- C9 witness: two contexts agreeing on the cached menu give the same
reconciliation result. -/
theorem validate_items_pure_witness :
    (validate_items (fun _ _ => 0) (7/10) ["pizza"]
        (SessionContext.new "web" "u1" "s1" 0)).1
      = (validate_items (fun _ _ => 0) (7/10) ["pizza"]
        (SessionContext.new "other" "u2" "s2" 5)).1 :=
  (validate_items_pure _ _ _ _ _).2 rfl

/-- C6: a raw line whose trimmed, lower-cased form has an exact hit in
the `name_to_item` lookup is matched to that entry immediately, for
every ratio function and every threshold: fuzzy scoring cannot affect
the outcome. -/
theorem exact_match_wins (ratio : String → String → ℚ)
    (fuzzy_threshold : ℚ) (menu_items : List MenuItem)
    (acc : List MenuItem × List String) (raw : String) (item : MenuItem)
    (hne : pyStrip raw ≠ "")
    (h : dictGet (pyLower (pyStrip raw)) (buildLookup menu_items).1 = some item) :
    lineStep ratio fuzzy_threshold (buildLookup menu_items).1
        (buildLookup menu_items).2 acc raw
      = (acc.1 ++ [item], acc.2) := by
  simp [lineStep, hne, h]

/-- C6 witness: the spec scenario: `"Cheeseburger"` against the menu
`["cheeseburger", "cheese burger deluxe"]` matches the first entry even
under an adversarial ratio function scoring every candidate at 1. -/
theorem exact_match_wins_witness :
    lineStep (fun _ _ => 1) (7/10)
        (buildLookup [MenuItem.str "cheeseburger", MenuItem.str "cheese burger deluxe"]).1
        (buildLookup [MenuItem.str "cheeseburger", MenuItem.str "cheese burger deluxe"]).2
        ([], []) "Cheeseburger"
      = ([MenuItem.str "cheeseburger"], []) :=
  exact_match_wins _ _ _ _ _ _ (by decide) (by rfl)

/-- Helper: the tracked best ratio of the fuzzy fold is the running
maximum of the scanned ratios, seeded by the accumulator value. -/
theorem fuzzyFold_snd (ratio : String → String → ℚ) (cand : String)
    (names : List String) :
    ∀ acc : Option String × ℚ,
      (List.foldl (fuzzyStep ratio cand) acc names).2
        = List.foldl (fun b n => max b (ratio cand n)) acc.2 names := by
  induction names with
  | nil => intro acc; rfl
  | cons n rest ih =>
    intro acc
    simp only [List.foldl_cons]
    rw [ih]
    by_cases hlt : acc.2 < ratio cand n
    · simp [fuzzyStep, hlt, max_eq_right hlt.le]
    · simp [fuzzyStep, hlt, max_eq_left (not_lt.mp hlt)]

/-- Helper: the seed is a lower bound of the running-maximum fold. -/
theorem le_foldlMax (ratio : String → String → ℚ) (cand : String)
    (names : List String) :
    ∀ b : ℚ, b ≤ List.foldl (fun b n => max b (ratio cand n)) b names := by
  induction names with
  | nil => intro b; simp
  | cons n rest ih =>
    intro b
    simp only [List.foldl_cons]
    exact le_trans (le_max_left _ _) (ih _)

/-- Helper: the running-maximum fold returns its seed or a ratio
attained by some scanned name. -/
theorem foldlMax_attained (ratio : String → String → ℚ) (cand : String)
    (names : List String) :
    ∀ b : ℚ, List.foldl (fun b n => max b (ratio cand n)) b names = b ∨
      ∃ n ∈ names, List.foldl (fun b n => max b (ratio cand n)) b names = ratio cand n := by
  induction names with
  | nil => intro b; left; rfl
  | cons n rest ih =>
    intro b
    simp only [List.foldl_cons]
    rcases ih (max b (ratio cand n)) with h | ⟨m, hm, he⟩
    · rcases max_cases b (ratio cand n) with ⟨he', _⟩ | ⟨he', _⟩
      · left
        rw [h, he']
      · right
        exact ⟨n, List.mem_cons_self n rest, by rw [h, he']⟩
    · right
      exact ⟨m, List.mem_cons_of_mem _ hm, he⟩

/-- Helper: a witness of the predicate inside the list makes `find?`
succeed, and its result satisfies the predicate and belongs to the
list. -/
theorem find?_of_exists {p : String → Bool} :
    ∀ {l : List String}, (∃ x ∈ l, p x = true) →
      ∃ y, l.find? p = some y ∧ y ∈ l ∧ p y = true := by
  intro l
  induction l with
  | nil =>
    rintro ⟨x, hx, _⟩
    cases hx
  | cons a rest ih =>
    rintro ⟨x, hx, hpx⟩
    by_cases hpa : p a = true
    · exact ⟨a, List.find?_cons_of_pos _ hpa, List.mem_cons_self a rest, hpa⟩
    · rcases List.mem_cons.mp hx with rfl | hx'
      · exact absurd hpx hpa
      · rcases ih ⟨x, hx', hpx⟩ with ⟨y, hf, hy, hpy⟩
        exact ⟨y, by rw [List.find?_cons_of_neg _ hpa]; exact hf,
          List.mem_cons_of_mem _ hy, hpy⟩

/-- Helper: Python lower-casing preserves non-emptiness. -/
theorem pyLower_ne_empty (s : String) (h : s ≠ "") : pyLower s ≠ "" := by
  intro hc
  apply h
  have hd : s.data.map Char.toLower = [] := congrArg String.data hc
  have hnil : s.data = [] := List.map_eq_nil_iff.mp hd
  cases s
  simp_all

/-- Helper: every name recorded for fuzzy scanning by `buildLookup` is
non-empty (empty normalized names are skipped by the loop). -/
theorem buildLookup_names_ne_empty (menu_items : List MenuItem) :
    ∀ n ∈ (buildLookup menu_items).2, n ≠ "" := by
  have general : ∀ (l : List MenuItem) (acc : List (String × MenuItem) × List String),
      (∀ n ∈ acc.2, n ≠ "") →
      ∀ n ∈ (List.foldl lookupStep acc l).2, n ≠ "" := by
    intro l
    induction l with
    | nil =>
      intro acc hacc
      exact hacc
    | cons m rest ih =>
      intro acc hacc
      simp only [List.foldl_cons]
      apply ih
      by_cases hname : itemName m = ""
      · simpa [lookupStep, hname] using hacc
      · intro n hn
        simp only [lookupStep, hname, if_neg] at hn
        rcases List.mem_append.mp hn with h | h
        · exact hacc n h
        · rcases List.mem_singleton.mp h with rfl
          exact pyLower_ne_empty _ hname
  exact general menu_items ([], []) (by simp)

/-- Helper: the chosen candidate of the fuzzy fold is the first name
attaining the final running maximum whenever that maximum exceeds the
seeded best ratio; otherwise the seeded best match is kept. -/
theorem fuzzyFold_fst (ratio : String → String → ℚ) (cand : String)
    (names : List String) :
    ∀ acc : Option String × ℚ,
      (List.foldl (fuzzyStep ratio cand) acc names).1
        = if acc.2 < List.foldl (fun b n => max b (ratio cand n)) acc.2 names
          then names.find? (fun n =>
            decide (ratio cand n = List.foldl (fun b n => max b (ratio cand n)) acc.2 names))
          else acc.1 := by
  induction names with
  | nil => intro acc; simp
  | cons n rest ih =>
    intro acc
    simp only [List.foldl_cons]
    by_cases hlt : acc.2 < ratio cand n
    · have hstep : fuzzyStep ratio cand acc n = (some n, ratio cand n) := by
        simp [fuzzyStep, hlt]
      rw [hstep, ih]
      dsimp only
      simp only [max_eq_right hlt.le]
      have hrM : ratio cand n
          ≤ List.foldl (fun b n => max b (ratio cand n)) (ratio cand n) rest :=
        le_foldlMax ratio cand rest _
      have haccM : acc.2 < List.foldl (fun b n => max b (ratio cand n)) (ratio cand n) rest :=
        lt_of_lt_of_le hlt hrM
      rw [if_pos haccM]
      by_cases heq : ratio cand n
          = List.foldl (fun b n => max b (ratio cand n)) (ratio cand n) rest
      · rw [List.find?_cons_of_pos _ (by simpa using heq), if_neg (not_lt.mpr heq.ge)]
      · rw [List.find?_cons_of_neg _ (by simpa using heq), if_pos (lt_of_le_of_ne hrM heq)]
    · have hstep : fuzzyStep ratio cand acc n = acc := by
        simp [fuzzyStep, hlt]
      rw [hstep, ih]
      simp only [max_eq_left (not_lt.mp hlt)]
      by_cases hcond : acc.2 < List.foldl (fun b n => max b (ratio cand n)) acc.2 rest
      · rw [if_pos hcond, if_pos hcond, List.find?_cons_of_neg]
        simp only [decide_eq_true_eq]
        exact ne_of_lt (lt_of_le_of_lt (not_lt.mp hlt) hcond)
      · rw [if_neg hcond, if_neg hcond]

/-- C7: during fuzzy matching, a candidate replaces the current best
only when its ratio is strictly greater than the current maximum
(first conjunct, the loop body verbatim); consequently the final best
ratio is the maximum of all scanned ratios and the chosen candidate is
the first name in menu iteration order attaining that maximum (absent
when no ratio is positive) — a deterministic function of the line and
the ordered menu list. -/
theorem fuzzy_tie_break (ratio : String → String → ℚ) (cand_lower : String)
    (names_lower : List String) :
    (∀ (acc : Option String × ℚ) (n : String),
      fuzzyStep ratio cand_lower acc n
        = if acc.2 < ratio cand_lower n then (some n, ratio cand_lower n) else acc) ∧
    (fuzzyBest ratio cand_lower names_lower).2 = maxRatio ratio cand_lower names_lower ∧
    (fuzzyBest ratio cand_lower names_lower).1
      = (if 0 < maxRatio ratio cand_lower names_lower
        then names_lower.find? (fun n =>
          decide (ratio cand_lower n = maxRatio ratio cand_lower names_lower))
        else none) := by
  refine ⟨fun acc n => rfl, ?_, ?_⟩
  · simpa [fuzzyBest, maxRatio] using fuzzyFold_snd ratio cand_lower names_lower (none, 0)
  · simpa [fuzzyBest, maxRatio] using fuzzyFold_fst ratio cand_lower names_lower (none, 0)

/-- C8: for a raw order line with no exact menu hit, the line is
matched iff the maximum similarity ratio over the candidate names
reaches the (positive) configured threshold, and it lands in the
unmatched list iff the maximum falls short. -/
theorem fuzzy_threshold_match (ratio : String → String → ℚ)
    (fuzzy_threshold : ℚ) (menu_items : List MenuItem)
    (acc : List MenuItem × List String) (raw : String)
    (hth : 0 < fuzzy_threshold)
    (hne : pyStrip raw ≠ "")
    (hexact : dictGet (pyLower (pyStrip raw)) (buildLookup menu_items).1 = none) :
    ((∃ item, lineStep ratio fuzzy_threshold (buildLookup menu_items).1
          (buildLookup menu_items).2 acc raw = (acc.1 ++ [item], acc.2))
        ↔ fuzzy_threshold
            ≤ maxRatio ratio (pyLower (pyStrip raw)) (buildLookup menu_items).2) ∧
    (lineStep ratio fuzzy_threshold (buildLookup menu_items).1
          (buildLookup menu_items).2 acc raw = (acc.1, acc.2 ++ [pyStrip raw])
        ↔ maxRatio ratio (pyLower (pyStrip raw)) (buildLookup menu_items).2
            < fuzzy_threshold) := by
  set cl := pyLower (pyStrip raw) with hcldef
  set names := (buildLookup menu_items).2 with hnamesdef
  set dict := (buildLookup menu_items).1 with hdictdef
  set M := maxRatio ratio cl names with hMdef
  have hsnd : (fuzzyBest ratio cl names).2 = M := by
    rw [hMdef]
    simpa [fuzzyBest, maxRatio] using fuzzyFold_snd ratio cl names (none, 0)
  have hfst : (fuzzyBest ratio cl names).1
      = (if 0 < M then names.find? (fun n => decide (ratio cl n = M)) else none) := by
    rw [hMdef]
    simpa [fuzzyBest, maxRatio] using fuzzyFold_fst ratio cl names (none, 0)
  by_cases hcase : fuzzy_threshold ≤ M
  · have hMpos : 0 < M := lt_of_lt_of_le hth hcase
    have hatt := foldlMax_attained ratio cl names 0
    rw [show List.foldl (fun b n => max b (ratio cl n)) 0 names = M from rfl] at hatt
    rcases hatt with h0 | ⟨n₀, hn₀, hrat⟩
    · exact absurd (h0 ▸ hMpos) (lt_irrefl 0)
    · rcases find?_of_exists (p := fun n => decide (ratio cl n = M)) ⟨n₀, hn₀, by simpa using hrat.symm⟩ with ⟨y, hfind, hy, _⟩
      have hyne : y ≠ "" := buildLookup_names_ne_empty menu_items y hy
      have hcond : strTruthy (fuzzyBest ratio cl names).1 = true
          ∧ fuzzy_threshold ≤ (fuzzyBest ratio cl names).2 := by
        refine ⟨?_, by rw [hsnd]; exact hcase⟩
        rw [hfst, if_pos hMpos, hfind]
        simp [strTruthy, hyne]
      have hline : lineStep ratio fuzzy_threshold dict names acc raw
          = (acc.1 ++ [(dictGet ((fuzzyBest ratio cl names).1.getD "") dict).getD (.str "")],
             acc.2) := by
        simp only [lineStep]
        rw [if_neg hne, hexact, if_pos hcond]
      constructor
      · exact iff_of_true ⟨_, hline⟩ hcase
      · refine iff_of_false (fun heq => ?_) (not_lt.mpr hcase)
        have h2 := congrArg (fun p => p.2.length) (hline.symm.trans heq)
        simp at h2
  · have hcondF : ¬ (strTruthy (fuzzyBest ratio cl names).1 = true
        ∧ fuzzy_threshold ≤ (fuzzyBest ratio cl names).2) := by
      rintro ⟨_, hle⟩
      rw [hsnd] at hle
      exact hcase hle
    have hline : lineStep ratio fuzzy_threshold dict names acc raw
        = (acc.1, acc.2 ++ [pyStrip raw]) := by
      simp only [lineStep]
      rw [if_neg hne, hexact, if_neg hcondF]
    constructor
    · refine iff_of_false (fun hex => ?_) hcase
      rcases hex with ⟨item, heq⟩
      have h1 := congrArg (fun p => p.1.length) (hline.symm.trans heq)
      simp at h1
    · exact iff_of_true hline (not_le.mp hcase)

/-- C8 witness: with threshold `0.7` and menu `["pizza"]`, a line whose
best similarity ratio is exactly `0.70` is matched, while a best ratio
of `0.69` leaves the line unmatched. -/
theorem fuzzy_threshold_match_witness :
    (∃ item, lineStep (fun _ _ => 7/10) (7/10) (buildLookup [MenuItem.str "pizza"]).1
        (buildLookup [MenuItem.str "pizza"]).2 ([], []) "abc"
      = ([] ++ [item], [])) ∧
    lineStep (fun _ _ => 69/100) (7/10) (buildLookup [MenuItem.str "pizza"]).1
        (buildLookup [MenuItem.str "pizza"]).2 ([], []) "abc"
      = ([], [] ++ [pyStrip "abc"]) := by
  constructor
  · apply (fuzzy_threshold_match (fun _ _ => 7/10) (7/10) [MenuItem.str "pizza"]
      ([], []) "abc" (by norm_num) (by decide) rfl).1.mpr
    rw [show maxRatio (fun _ _ => (7:ℚ)/10) (pyLower (pyStrip "abc"))
        (buildLookup [MenuItem.str "pizza"]).2 = max 0 (7/10) from rfl]
    rw [max_eq_right (by norm_num : (0:ℚ) ≤ 7/10)]
  · apply (fuzzy_threshold_match (fun _ _ => 69/100) (7/10) [MenuItem.str "pizza"]
      ([], []) "abc" (by norm_num) (by decide) rfl).2.mpr
    rw [show maxRatio (fun _ _ => (69:ℚ)/100) (pyLower (pyStrip "abc"))
        (buildLookup [MenuItem.str "pizza"]).2 = max 0 (69/100) from rfl]
    rw [max_eq_right (by norm_num : (0:ℚ) ≤ 69/100)]
    norm_num

/-- Helper: `validate_items` passes the context through unchanged. -/
theorem validate_items_snd (ratio : String → String → ℚ) (fuzzy_threshold : ℚ)
    (ordered_items : List String) (ctx : SessionContext) :
    (validate_items ratio fuzzy_threshold ordered_items ctx).2 = ctx := by
  simp only [validate_items]
  split <;> rfl

/-- Helper: the menu handler never touches the short-term memory, the
session meta or the done flag. -/
theorem handle_get_menu_frame (cfg : Config) (ports : PortBehavior)
    (ctx : SessionContext) (r : String) (ctx' : SessionContext)
    (h : handle_get_menu cfg ports ctx = .ok (r, ctx')) :
    ctx'.short_term = ctx.short_term ∧ ctx'.session = ctx.session ∧
    ctx'.state.session_done = ctx.state.session_done := by
  cases hp : gatewayPost cfg.N8N_MENU_WEBHOOK_URL ports.menuResp with
  | error e => simp [handle_get_menu, hp] at h
  | ok data =>
    simp only [handle_get_menu, hp] at h
    split at h <;>
    · simp only [Except.ok.injEq, Prod.mk.injEq] at h
      obtain ⟨-, h2⟩ := h
      subst h2
      exact ⟨rfl, rfl, rfl⟩

/-- Helper: the phone handler never touches the short-term memory, the
session meta or the done flag. -/
theorem handle_phone_frame (cfg : Config) (ports : PortBehavior)
    (d : IntentData) (ctx : SessionContext) (r : String) (ctx' : SessionContext)
    (h : handle_phone cfg ports d ctx = .ok (r, ctx')) :
    ctx'.short_term = ctx.short_term ∧ ctx'.session = ctx.session ∧
    ctx'.state.session_done = ctx.state.session_done := by
  simp only [handle_phone] at h
  by_cases hph : strTruthy (pyOrOpt d.phone ctx.state.scratchpad.phone) = false
  · rw [if_pos hph] at h
    simp only [Except.ok.injEq, Prod.mk.injEq] at h
    obtain ⟨-, h2⟩ := h
    subst h2
    exact ⟨rfl, rfl, rfl⟩
  · rw [if_neg hph] at h
    cases hp : gatewayPost cfg.N8N_PHONE_WEBHOOK_URL ports.phoneResp with
    | error e => simp [hp] at h
    | ok data =>
      simp only [hp] at h
      split at h <;>
      · simp only [Except.ok.injEq, Prod.mk.injEq] at h
        obtain ⟨-, h2⟩ := h
        subst h2
        exact ⟨rfl, rfl, rfl⟩

/-- Helper: the address handler never touches the short-term memory,
the session meta or the done flag. -/
theorem handle_address_frame (d : IntentData) (ctx : SessionContext) :
    (handle_address d ctx).2.short_term = ctx.short_term ∧
    (handle_address d ctx).2.session = ctx.session ∧
    (handle_address d ctx).2.state.session_done = ctx.state.session_done := by
  simp only [handle_address]
  split <;> exact ⟨rfl, rfl, rfl⟩

/-- Helper: the order handler never touches the short-term memory or
the session meta, and either leaves the done flag or sets it to true. -/
theorem handle_order_frame (cfg : Config) (ports : PortBehavior)
    (ratio : String → String → ℚ) (fuzzy_threshold : ℚ) (d : IntentData)
    (ctx : SessionContext) (r : String) (ctx' : SessionContext)
    (h : handle_order cfg ports ratio fuzzy_threshold d ctx = .ok (r, ctx')) :
    ctx'.short_term = ctx.short_term ∧ ctx'.session = ctx.session ∧
    (ctx'.state.session_done = ctx.state.session_done ∨
      ctx'.state.session_done = true) := by
  simp only [handle_order, validate_items_snd] at h
  split at h
  · cases hp : gatewayPost cfg.N8N_ORDER_WEBHOOK_URL ports.orderResp with
    | error e => simp [hp] at h
    | ok data =>
      simp only [hp] at h
      simp only [Except.ok.injEq, Prod.mk.injEq] at h
      obtain ⟨-, h2⟩ := h
      subst h2
      exact ⟨rfl, rfl, Or.inr rfl⟩
  · simp only [Except.ok.injEq, Prod.mk.injEq] at h
    obtain ⟨-, h2⟩ := h
    subst h2
    exact ⟨rfl, rfl, Or.inl rfl⟩

/-- Helper: the intent branch of the dispatcher never touches the
short-term memory or session meta, and never resets a true done flag. -/
theorem intentBranch_frame (cfg : Config) (ports : PortBehavior)
    (ratio : String → String → ℚ) (fuzzy_threshold : ℚ) (d : IntentData)
    (ctx : SessionContext) (r : String) (ctx' : SessionContext)
    (h : intentBranch cfg ports ratio fuzzy_threshold d ctx = .ok (r, ctx')) :
    ctx'.short_term = ctx.short_term ∧ ctx'.session = ctx.session ∧
    (ctx.state.session_done = true → ctx'.state.session_done = true) := by
  unfold intentBranch at h
  split_ifs at h
  · obtain ⟨h1, h2, h3⟩ := handle_get_menu_frame _ _ _ _ _ h
    exact ⟨h1, h2, fun hd => by rw [h3]; exact hd⟩
  · obtain ⟨h1, h2, h3⟩ := handle_phone_frame _ _ _ _ _ _ h
    exact ⟨h1, h2, fun hd => by rw [h3]; exact hd⟩
  · simp only [Except.ok.injEq] at h
    obtain ⟨h1, h2, h3⟩ := handle_address_frame d { ctx with state.step := some "address" }
    rw [h] at h1 h2 h3
    exact ⟨h1, h2, fun hd => by rw [h3]; exact hd⟩
  · obtain ⟨h1, h2, h3⟩ := handle_order_frame _ _ _ _ _ _ _ _ h
    refine ⟨h1, h2, fun hd => ?_⟩
    rcases h3 with h3 | h3
    · rw [h3]; exact hd
    · exact h3
  · simp only [Except.ok.injEq, Prod.mk.injEq] at h
    obtain ⟨-, h2⟩ := h
    subst h2
    exact ⟨rfl, rfl, fun hd => hd⟩
  · simp only [Except.ok.injEq, Prod.mk.injEq] at h
    obtain ⟨-, h2⟩ := h
    subst h2
    exact ⟨rfl, rfl, fun hd => hd⟩

/-- Helper: `_route_intent` keeps the short-term memory and session
meta, returns the context's done flag as read after the handler ran,
and never resets a true done flag. -/
theorem route_intent_spec (cfg : Config) (ports : PortBehavior)
    (ratio : String → String → ℚ) (fuzzy_threshold : ℚ) (d : IntentData)
    (ctx : SessionContext) (out : String × Bool × SessionContext)
    (h : route_intent cfg ports ratio fuzzy_threshold d ctx = .ok out) :
    out.2.2.short_term = ctx.short_term ∧ out.2.2.session = ctx.session ∧
    out.2.1 = out.2.2.state.session_done ∧
    (ctx.state.session_done = true → out.2.2.state.session_done = true) := by
  simp only [route_intent] at h
  cases hb : intentBranch cfg ports ratio fuzzy_threshold d
      (if ctx.state.flow = none then { ctx with state.flow := some "food_order" } else ctx) with
  | error e => simp [hb] at h
  | ok p =>
    obtain ⟨r, ctx'⟩ := p
    simp only [hb] at h
    simp only [Except.ok.injEq] at h
    subst h
    obtain ⟨h1, h2, h3⟩ := intentBranch_frame _ _ _ _ _ _ _ _ hb
    have hst : (if ctx.state.flow = none
        then { ctx with state.flow := some "food_order" } else ctx).short_term
        = ctx.short_term := by split <;> rfl
    have hse : (if ctx.state.flow = none
        then { ctx with state.flow := some "food_order" } else ctx).session
        = ctx.session := by split <;> rfl
    have hdn : (if ctx.state.flow = none
        then { ctx with state.flow := some "food_order" } else ctx).state.session_done
        = ctx.state.session_done := by split <;> rfl
    exact ⟨h1.trans hst, h2.trans hse, rfl, fun hd => h3 (by rw [hdn]; exact hd)⟩

/-- C4: the done flag is a one-way latch across turns: if the session
record loaded for this turn already has `session_done = true`, then the
turn's response reports `session_done = true` and the record written
back to the store still has `session_done = true` (the only store
mutation the coordinator performs is that save). -/
theorem done_latch (cfg : Config) (ports : PortBehavior)
    (ratio : String → String → ℚ) (fuzzy_threshold : ℚ)
    (store : MemoryStore) (req : OrchestratorRequest) (d : IntentData)
    (now : Int) (ctx : SessionContext)
    {resp : OrchestratorResponse} {store' : MemoryStore}
    (hload : (store.load req.channel req.user_id req.session_id now).1 = some ctx)
    (hdone : ctx.state.session_done = true)
    (hok : handle cfg ports ratio fuzzy_threshold store req d now = .ok (resp, store')) :
    resp.session_done = true ∧
    ∃ ctx', ctx'.state.session_done = true ∧
      store' = ((store.load req.channel req.user_id req.session_id now).2).save ctx' := by
  simp only [handle, resolve_session, hload] at hok
  cases hr : route_intent cfg ports ratio fuzzy_threshold d
      (ctx.append_user_message req.text now) with
  | error e => simp [hr] at hok
  | ok out =>
    obtain ⟨r, done, ctx'⟩ := out
    simp only [hr] at hok
    simp only [Except.ok.injEq, Prod.mk.injEq] at hok
    obtain ⟨hresp, hstore⟩ := hok
    obtain ⟨-, -, hdn, hlatch⟩ := route_intent_spec _ _ _ _ _ _ _ hr
    have hdn' : done = ctx'.state.session_done := hdn
    have happ : (ctx.append_user_message req.text now).state.session_done = true := hdone
    have hctx' : ctx'.state.session_done = true := hlatch happ
    constructor
    · rw [← hresp]
      show done = true
      rw [hdn']
      exact hctx'
    · refine ⟨{ ctx' with state := { ctx'.state with session_done := done } }, ?_, ?_⟩
      · show done = true
        rw [hdn']
        exact hctx'
      · rw [← hstore]

/-- C4 witness: a turn on a session whose record is already done keeps
the flag true in the response. -/
theorem done_latch_witness :
    ∃ p, handle {} {} (fun _ _ => 0) (7/10)
        (MemoryStore.mk [(("web", "u1", "s1"),
          { SessionContext.new "web" "u1" "s1" 0 with state.session_done := true })] 3600)
        ⟨"web", "u1", "s1", "hi"⟩ { intent := "chitchat" } 10 = .ok p ∧
      p.1.session_done = true := by
  refine ⟨_, rfl, ?_⟩
  exact (done_latch {} {} (fun _ _ => 0) (7/10)
    (MemoryStore.mk [(("web", "u1", "s1"),
      { SessionContext.new "web" "u1" "s1" 0 with state.session_done := true })] 3600)
    ⟨"web", "u1", "s1", "hi"⟩ { intent := "chitchat" } 10
    { SessionContext.new "web" "u1" "s1" 0 with state.session_done := true }
    rfl rfl rfl).1

/-- C10: a fresh session record satisfies the history invariant, and
every successful turn writes back (as the only store mutation) a record
whose history is the resolved record's history plus exactly one
appended user-role message carrying the request text, with `turn_count`
bumped by one; consequently the invariant "every history entry has the
user role and `history.length = turn_count`" is preserved. -/
theorem handle_appends_one_user_message (cfg : Config) (ports : PortBehavior)
    (ratio : String → String → ℚ) (fuzzy_threshold : ℚ)
    (store : MemoryStore) (req : OrchestratorRequest) (d : IntentData)
    (now : Int) {resp : OrchestratorResponse} {store' : MemoryStore}
    (hok : handle cfg ports ratio fuzzy_threshold store req d now = .ok (resp, store')) :
    historyInv (SessionContext.new req.channel req.user_id req.session_id now) ∧
    ∃ ctx',
      store' = ((resolve_session store req now).2).save ctx' ∧
      ctx'.short_term.history
        = (resolve_session store req now).1.short_term.history
          ++ [{ role := Role.user, text := req.text, timestamp := now }] ∧
      ctx'.short_term.turn_count
        = (resolve_session store req now).1.short_term.turn_count + 1 ∧
      (historyInv (resolve_session store req now).1 → historyInv ctx') := by
  constructor
  · exact ⟨fun m hm => absurd hm (List.not_mem_nil m), rfl⟩
  · simp only [handle] at hok
    cases hr : route_intent cfg ports ratio fuzzy_threshold d
        ((resolve_session store req now).1.append_user_message req.text now) with
    | error e => simp [hr] at hok
    | ok out =>
      obtain ⟨r, done, ctx'⟩ := out
      simp only [hr] at hok
      simp only [Except.ok.injEq, Prod.mk.injEq] at hok
      obtain ⟨hresp, hstore⟩ := hok
      obtain ⟨hshort, -, -, -⟩ := route_intent_spec _ _ _ _ _ _ _ hr
      have hshort' : ctx'.short_term
          = ((resolve_session store req now).1.append_user_message req.text now).short_term :=
        hshort
      have hhist : ctx'.short_term.history
          = (resolve_session store req now).1.short_term.history
            ++ [{ role := Role.user, text := req.text, timestamp := now }] := by
        rw [hshort']
        rfl
      have hcount : ctx'.short_term.turn_count
          = (resolve_session store req now).1.short_term.turn_count + 1 := by
        rw [hshort']
        rfl
      refine ⟨{ ctx' with state := { ctx'.state with session_done := done } },
        ?_, hhist, hcount, ?_⟩
      · rw [← hstore]
      · intro hinv
        constructor
        · intro m hm
          have hm' : m ∈ ctx'.short_term.history := hm
          rw [hhist] at hm'
          rcases List.mem_append.mp hm' with h | h
          · exact hinv.1 m h
          · rw [List.mem_singleton.mp h]
        · show ctx'.short_term.history.length = ctx'.short_term.turn_count
          rw [hhist, hcount, List.length_append, hinv.2]
          rfl

/-- C10 witness: a concrete first turn returns successfully and the
fresh-record invariant holds. -/
theorem handle_appends_one_user_message_witness :
    ∃ p, handle {} {} (fun _ _ => 0) (7/10) (MemoryStore.mk [] 3600)
        ⟨"web", "u1", "s1", "hello"⟩ { intent := "chitchat" } 0 = .ok p ∧
      historyInv (SessionContext.new "web" "u1" "s1" 0) := by
  refine ⟨_, rfl, ?_⟩
  exact (handle_appends_one_user_message {} {} (fun _ _ => 0) (7/10)
    (MemoryStore.mk [] 3600) ⟨"web", "u1", "s1", "hello"⟩ { intent := "chitchat" } 0 rfl).1

/-- Helper: looking up the key just saved finds the freshly saved
record. -/
theorem storeGet_save (l : List (SessionKey × SessionContext)) (k : SessionKey)
    (c : SessionContext) :
    storeGet k (l.filter (fun p => decide (p.1 ≠ k)) ++ [(k, c)]) = some c := by
  induction l with
  | nil => simp [storeGet]
  | cons a rest ih =>
    by_cases hk : a.1 = k
    · simpa [List.filter_cons, hk] using ih
    · simpa [List.filter_cons, hk, storeGet, List.find?] using ih

/-- Helper: a key filtered out of the association list can no longer be
found. -/
theorem storeGet_erase (l : List (SessionKey × SessionContext)) (k : SessionKey) :
    storeGet k (l.filter (fun p => decide (p.1 ≠ k))) = none := by
  induction l with
  | nil => rfl
  | cons a rest ih =>
    by_cases hk : a.1 = k
    · simpa [List.filter_cons, hk] using ih
    · simpa [List.filter_cons, hk, storeGet, List.find?] using ih

/-- C3: a record saved under its own key is returned intact by `load`
while `now - last_seen_at ≤ ttl`; once `now - last_seen_at > ttl`,
`load` reports it absent and evicts it as a side effect, so any later
`load` of that key (at any time, with no intervening save) also reports
it absent. -/
theorem load_after_save (s : MemoryStore) (rec : SessionContext) (now now₂ : Int) :
    (now - rec.session.last_seen_at ≤ s.ttl →
      (s.save rec).load rec.session.channel rec.session.user_id rec.session.session_id now
        = (some rec, s.save rec)) ∧
    (s.ttl < now - rec.session.last_seen_at →
      ((s.save rec).load rec.session.channel rec.session.user_id
          rec.session.session_id now).1 = none ∧
      ((((s.save rec).load rec.session.channel rec.session.user_id
            rec.session.session_id now).2).load rec.session.channel rec.session.user_id
          rec.session.session_id now₂).1 = none) := by
  constructor
  · intro h
    simp only [MemoryStore.load, MemoryStore.save, storeGet_save]
    rw [if_neg (not_lt.mpr h)]
  · intro h
    constructor
    · simp only [MemoryStore.load, MemoryStore.save, storeGet_save]
      rw [if_pos h]
    · simp only [MemoryStore.load, MemoryStore.save, storeGet_save]
      rw [if_pos h]
      simp only [storeGet_erase]

/-- C3 witness: concrete round-trip before the TTL elapses and eviction
with non-retrievability after it. -/
theorem load_after_save_witness :
    ((MemoryStore.mk [] 3600).save (SessionContext.new "web" "u1" "s1" 0)).load
        "web" "u1" "s1" 10
      = (some (SessionContext.new "web" "u1" "s1" 0),
         (MemoryStore.mk [] 3600).save (SessionContext.new "web" "u1" "s1" 0)) ∧
    (((MemoryStore.mk [] 3600).save (SessionContext.new "web" "u1" "s1" 0)).load
        "web" "u1" "s1" 9999).1 = none ∧
    ((((MemoryStore.mk [] 3600).save (SessionContext.new "web" "u1" "s1" 0)).load
        "web" "u1" "s1" 9999).2.load "web" "u1" "s1" 20).1 = none := by
  refine ⟨?_, ?_, ?_⟩
  · exact (load_after_save (MemoryStore.mk [] 3600)
      (SessionContext.new "web" "u1" "s1" 0) 10 20).1 (by decide)
  · exact ((load_after_save (MemoryStore.mk [] 3600)
      (SessionContext.new "web" "u1" "s1" 0) 9999 20).2 (by decide)).1
  · exact ((load_after_save (MemoryStore.mk [] 3600)
      (SessionContext.new "web" "u1" "s1" 0) 9999 20).2 (by decide)).2

/-- Helper: a successful HTTP behavior makes the gateway call succeed
(an unconfigured URL succeeds with the error dict). -/
theorem gatewayPost_ok (url : String) (x : N8NData) :
    ∃ y, gatewayPost url (.ok x) = .ok y := by
  unfold gatewayPost
  split
  · exact ⟨{}, rfl⟩
  · exact ⟨x, rfl⟩

/-- Helper: the menu handler returns a reply whenever the menu port
behavior does not raise. -/
theorem handle_get_menu_total (cfg : Config) (ports : PortBehavior)
    (ctx : SessionContext) (hm : ∃ x, ports.menuResp = .ok x) :
    ∃ out, handle_get_menu cfg ports ctx = .ok out := by
  obtain ⟨x, hx⟩ := hm
  obtain ⟨y, hy⟩ := gatewayPost_ok cfg.N8N_MENU_WEBHOOK_URL x
  simp only [handle_get_menu, hx, hy]
  split
  · exact ⟨_, rfl⟩
  · exact ⟨_, rfl⟩

/-- Helper: the phone handler returns a reply whenever the phone port
behavior does not raise. -/
theorem handle_phone_total (cfg : Config) (ports : PortBehavior)
    (d : IntentData) (ctx : SessionContext) (hp : ∃ x, ports.phoneResp = .ok x) :
    ∃ out, handle_phone cfg ports d ctx = .ok out := by
  obtain ⟨x, hx⟩ := hp
  obtain ⟨y, hy⟩ := gatewayPost_ok cfg.N8N_PHONE_WEBHOOK_URL x
  simp only [handle_phone, hx, hy]
  split
  · exact ⟨_, rfl⟩
  · split
    · exact ⟨_, rfl⟩
    · exact ⟨_, rfl⟩

/-- Helper: the order handler returns a reply whenever the order port
behavior does not raise. -/
theorem handle_order_total (cfg : Config) (ports : PortBehavior)
    (ratio : String → String → ℚ) (fuzzy_threshold : ℚ) (d : IntentData)
    (ctx : SessionContext) (ho : ∃ x, ports.orderResp = .ok x) :
    ∃ out, handle_order cfg ports ratio fuzzy_threshold d ctx = .ok out := by
  obtain ⟨x, hx⟩ := ho
  obtain ⟨y, hy⟩ := gatewayPost_ok cfg.N8N_ORDER_WEBHOOK_URL x
  simp only [handle_order, hx, hy]
  split
  · exact ⟨_, rfl⟩
  · exact ⟨_, rfl⟩

/-- Helper: the intent branch returns a reply whenever none of the
three n8n port behaviors raises. -/
theorem intentBranch_total (cfg : Config) (ports : PortBehavior)
    (ratio : String → String → ℚ) (fuzzy_threshold : ℚ) (d : IntentData)
    (ctx : SessionContext)
    (hm : ∃ x, ports.menuResp = .ok x) (hp : ∃ x, ports.phoneResp = .ok x)
    (ho : ∃ x, ports.orderResp = .ok x) :
    ∃ out, intentBranch cfg ports ratio fuzzy_threshold d ctx = .ok out := by
  unfold intentBranch
  split_ifs
  · exact handle_get_menu_total _ _ _ hm
  · exact handle_phone_total _ _ _ _ hp
  · exact ⟨_, rfl⟩
  · exact handle_order_total _ _ _ _ _ _ ho
  · exact ⟨_, rfl⟩
  · exact ⟨_, rfl⟩

/-- C2 counterexample: with a configured menu URL and an HTTP failure
on the menu port, the turn for a `get_menu` intent raises out of
`handle` (it returns the exception instead of a response), so the claim
that every port call site catches and converts is false. -/
theorem handle_port_failure_cex :
    handle { N8N_MENU_WEBHOOK_URL := "http://n8n/menu" }
      { menuResp := .error (.statusError 500) } (fun _ _ => 0) (7/10)
      (MemoryStore.mk [] 3600) ⟨"web", "u1", "s1", "menu please"⟩
      { intent := "get_menu" } 0
      = .error (.statusError 500) := rfl

/-- C2 (amended): failures of the analytics and fulfillment (POS) ports
never escape `handle` (they are swallowed at the call sites), but the
menu, phone and order port calls are not caught inside a turn: `handle`
is guaranteed to return a response only when those three behaviors do
not raise, and then it does so for every intent and every analytics/POS
behavior. -/
theorem handle_total_when_ports_ok (cfg : Config) (ports : PortBehavior)
    (ratio : String → String → ℚ) (fuzzy_threshold : ℚ)
    (store : MemoryStore) (req : OrchestratorRequest) (d : IntentData)
    (now : Int)
    (hm : ∃ x, ports.menuResp = .ok x) (hp : ∃ x, ports.phoneResp = .ok x)
    (ho : ∃ x, ports.orderResp = .ok x) :
    ∃ resp store', handle cfg ports ratio fuzzy_threshold store req d now
      = .ok (resp, store') := by
  obtain ⟨out, hout⟩ := intentBranch_total cfg ports ratio fuzzy_threshold d
    (if ((resolve_session store req now).1.append_user_message req.text now).state.flow = none
     then { (resolve_session store req now).1.append_user_message req.text now with
            state.flow := some "food_order" }
     else (resolve_session store req now).1.append_user_message req.text now)
    hm hp ho
  obtain ⟨r, ctx'⟩ := out
  simp only [handle, route_intent, hout]
  exact ⟨_, _, rfl⟩

/-- C2 witness: a turn with healthy n8n ports but failing POS and
analytics endpoints still returns a response. -/
theorem handle_total_when_ports_ok_witness :
    ∃ resp store', handle {}
      { posResp := .error .connectError, analyticsResp := .error .connectError }
      (fun _ _ => 0) (7/10) (MemoryStore.mk [] 3600)
      ⟨"web", "u1", "s1", "hello"⟩ { intent := "get_menu" } 0
      = .ok (resp, store') :=
  handle_total_when_ports_ok {}
    { posResp := .error .connectError, analyticsResp := .error .connectError }
    (fun _ _ => 0) (7/10) (MemoryStore.mk [] 3600)
    ⟨"web", "u1", "s1", "hello"⟩ { intent := "get_menu" } 0
    ⟨{}, rfl⟩ ⟨{}, rfl⟩ ⟨{}, rfl⟩

/-- C1 counterexample: a `place_order` turn in which every extracted
item matches the cached menu and the order port returns a result with
no `order_id` is treated as a success, not a failure: the reply is the
standard order-placed confirmation (no retry prompt) and
`session_done` is set to `true`, contradicting the claim that the
dispatcher answers with a "try again" message and leaves `done`
false. -/
theorem order_missing_id_cex :
    (handle { N8N_ORDER_WEBHOOK_URL := "http://n8n/order" } { orderResp := .ok {} }
        (fun _ _ => 0) (7/10)
        (MemoryStore.mk [(("web", "u1", "s1"),
          { SessionContext.new "web" "u1" "s1" 0 with
            state.scratchpad.menu_items := some [MenuItem.str "cheeseburger"] })] 3600)
        ⟨"web", "u1", "s1", "one cheeseburger"⟩
        { intent := "place_order", items := ["cheeseburger"] } 10).toOption.map
      (fun p => (p.1.session_done, p.1.reply_text))
    = some (true, "I’ve placed your order. Thank you for ordering! Enjoy your meal.") := rfl

/-- C1 (amended): when every extracted item matches the cached menu and
the order port returns a result lacking a (truthy) `order_id`, the
dispatcher does not treat it as a failure: it replies with the standard
order-placed confirmation — merely omitting the reference-ID clause —
caches the absent id, notifies the POS port, and sets
`session_done = true`. -/
theorem order_missing_id_confirms (cfg : Config) (ports : PortBehavior)
    (ratio : String → String → ℚ) (fuzzy_threshold : ℚ) (d : IntentData)
    (ctx : SessionContext) (data : N8NData)
    (hurl : cfg.N8N_ORDER_WEBHOOK_URL ≠ "")
    (hresp : ports.orderResp = .ok data)
    (hid : strTruthy data.order_id = false)
    (hmatched : (validate_items ratio fuzzy_threshold d.items ctx).1.2 = []) :
    handle_order cfg ports ratio fuzzy_threshold d ctx
      = .ok ((if strTruthy data.eta
            then "I’ve placed your order" ++ ". Estimated delivery time is "
              ++ data.eta.getD "" ++ "."
            else "I’ve placed your order" ++ ".")
          ++ " Thank you for ordering! Enjoy your meal.",
        { ctx with
          state := { ctx.state with
            scratchpad := { ctx.state.scratchpad with
              last_order_id := some data.order_id
              last_order_items :=
                some (validate_items ratio fuzzy_threshold d.items ctx).1.1 }
            session_done := true } }) := by
  simp only [handle_order, validate_items_snd, hmatched, List.isEmpty_nil, if_true]
  rw [show gatewayPost cfg.N8N_ORDER_WEBHOOK_URL ports.orderResp = .ok data by
    rw [gatewayPost, if_neg hurl, hresp]]
  simp only [hid, Bool.false_eq_true, if_false]

/-- C1 witness: concrete instance of the amended claim with an
all-matching order and an order port answering without `order_id`. -/
theorem order_missing_id_confirms_witness :
    handle_order { N8N_ORDER_WEBHOOK_URL := "http://n8n/order" } { orderResp := .ok {} }
      (fun _ _ => 0) (7/10) { intent := "place_order", items := ["cheeseburger"] }
      { SessionContext.new "web" "u1" "s1" 0 with
        state.scratchpad.menu_items := some [MenuItem.str "cheeseburger"] }
      = .ok ((if strTruthy (({} : N8NData)).eta
            then "I’ve placed your order" ++ ". Estimated delivery time is "
              ++ (({} : N8NData)).eta.getD "" ++ "."
            else "I’ve placed your order" ++ ".")
          ++ " Thank you for ordering! Enjoy your meal.",
        { ({ SessionContext.new "web" "u1" "s1" 0 with
              state.scratchpad.menu_items := some [MenuItem.str "cheeseburger"] }) with
          state := { ({ SessionContext.new "web" "u1" "s1" 0 with
              state.scratchpad.menu_items := some [MenuItem.str "cheeseburger"] }).state with
            scratchpad := { ({ SessionContext.new "web" "u1" "s1" 0 with
                state.scratchpad.menu_items := some [MenuItem.str "cheeseburger"] }).state.scratchpad with
              last_order_id := some (({} : N8NData)).order_id
              last_order_items :=
                some (validate_items (fun _ _ => 0) (7/10) ["cheeseburger"]
                  { SessionContext.new "web" "u1" "s1" 0 with
                    state.scratchpad.menu_items := some [MenuItem.str "cheeseburger"] }).1.1 }
            session_done := true } }) :=
  order_missing_id_confirms { N8N_ORDER_WEBHOOK_URL := "http://n8n/order" }
    { orderResp := .ok {} } (fun _ _ => 0) (7/10)
    { intent := "place_order", items := ["cheeseburger"] }
    { SessionContext.new "web" "u1" "s1" 0 with
      state.scratchpad.menu_items := some [MenuItem.str "cheeseburger"] }
    {} (by decide) rfl rfl rfl

end Orchestrator
